import Mathlib

/-!
Verification of the control-channel / hashing core of the ftpserver library
(file `handle_misc.go`).  The Go handlers are shallowly embedded as pure Lean
functions over an explicit session state; driver calls are modelled through
records of function-valued fields, and the side effects that matter to the
claims (handle acquisition, seeking, closing, reply writing) are reified as
event lists.
-/

set_option maxRecDepth 4000

/-! ## Models of Go standard-library functions used by the source -/

/-- Model of one step of Go `strings.SplitN`: find the first occurrence of the
separator character, returning the part before it and the rest after it, or
`none` when the separator does not occur. -/
def splitOnce (sep : Char) : List Char → Option (List Char × List Char)
  | [] => none
  | c :: cs =>
    if c = sep then some ([], cs)
    else (splitOnce sep cs).map (fun p => (c :: p.1, p.2))

/-- Model of Go `strings.SplitN` on a list of characters: at most `n`
substrings, the last one being the unsplit remainder; `n = 0` gives the empty
list, and a string without the separator is returned whole. -/
def goSplitList (sep : Char) : Nat → List Char → List (List Char)
  | 0, _ => []
  | 1, cs => [cs]
  | n + 2, cs =>
    match splitOnce sep cs with
    | none => [cs]
    | some (a, rest) => a :: goSplitList sep (n + 1) rest

/-- Model of Go `strings.SplitN(s, sep, n)` for a single-character separator
(the source only ever splits on a single space). -/
def stringsSplitN (s : String) (sep : Char) (n : Nat) : List String :=
  (goSplitList sep n s.data).map String.mk

/-- Decimal digit test for the `strconv.ParseInt` model. -/
def isDigit (c : Char) : Bool := decide ('0' ≤ c) && decide (c ≤ '9')

/-- Value of a nonempty all-digit character list; `none` otherwise. -/
def digitsVal (l : List Char) : Option Nat :=
  if l.isEmpty then none
  else if l.all isDigit then
    some (l.foldl (fun acc c => acc * 10 + (c.toNat - '0'.toNat)) 0)
  else none

/-- Model of Go `strconv.ParseInt(s, 10, 64)`: optional sign followed by a
nonempty run of decimal digits, rejected when out of the signed 64-bit range;
`none` models a returned parse error. -/
def parseInt64 (s : String) : Option Int :=
  match s.data with
  | '+' :: rest =>
    (digitsVal rest).bind fun v =>
      if v ≤ 9223372036854775807 then some (v : Int) else none
  | '-' :: rest =>
    (digitsVal rest).bind fun v =>
      if v ≤ 9223372036854775808 then some (-(v : Int)) else none
  | l =>
    (digitsVal l).bind fun v =>
      if v ≤ 9223372036854775807 then some (v : Int) else none

/-- Model of Go `strings.ToUpper` restricted to ASCII (all tokens compared
by the source are ASCII). -/
def goToUpper (s : String) : String := String.mk (s.data.map Char.toUpper)

/-- Model of Go `strings.EqualFold` restricted to ASCII (all tokens compared
by the source are ASCII): case-insensitive equality. -/
def equalFold (a b : String) : Bool := goToUpper a == goToUpper b

/-! ## Protocol status codes and the digest registry

These constants and the algorithm registry live in repository files that are
not part of the provided source slice; they are modelled from the spec. -/

/-- Modelled from the spec: protocol status code used for the hash result of a
custom per-algorithm command (file-OK class). -/
def StatusFileOK : Nat := 150

/-- Modelled from the spec: generic OK status code. -/
def StatusOK : Nat := 200

/-- Modelled from the spec: system-status code used by FEAT. -/
def StatusSystemStatus : Nat := 211

/-- Modelled from the spec: file-status code used by the negotiated HASH
command reply. -/
def StatusFileStatus : Nat := 213

/-- Modelled from the spec: system-type code used by SYST. -/
def StatusSystemType : Nat := 215

/-- Modelled from the spec: closing-control-connection code used by QUIT. -/
def StatusClosingControlConn : Nat := 221

/-- Modelled from the spec: status accepting the AUTH command. -/
def StatusAuthAccepted : Nat := 234

/-- Modelled from the spec: syntax-error / command-not-recognised class. -/
def StatusSyntaxErrorNotRecognised : Nat := 500

/-- Modelled from the spec: syntax error in parameters class. -/
def StatusSyntaxErrorParameters : Nat := 501

/-- Modelled from the spec: action-not-taken class. -/
def StatusActionNotTaken : Nat := 550

/-- Modelled from the spec: the distinct "no such file" action-not-taken
class used when the target is not a regular file. -/
def StatusActionNotTakenNoFile : Nat := 553

/-- Modelled from the spec: `HASHAlgo` is an integer-typed enumeration in the
repository (its declaration is outside the provided source slice). -/
abbrev HASHAlgo := Nat

/-- Modelled from the spec: the checksum member of the algorithm set. -/
def HASHAlgoCRC32 : HASHAlgo := 0

/-- Modelled from the spec: the MD5 member of the algorithm set. -/
def HASHAlgoMD5 : HASHAlgo := 1

/-- Modelled from the spec: the SHA-1 member of the algorithm set. -/
def HASHAlgoSHA1 : HASHAlgo := 2

/-- Modelled from the spec: the SHA-256 member of the algorithm set. -/
def HASHAlgoSHA256 : HASHAlgo := 3

/-- Modelled from the spec: the SHA-512 member of the algorithm set. -/
def HASHAlgoSHA512 : HASHAlgo := 4

/-- Modelled from the spec: `getHashMapping` — the name-to-algorithm registry
(one checksum plus four cryptographic hash names, protocol-visible and
case-sensitive).  A Go map is iterated in unspecified order; the registry is
injective in both components, so the association-list order fixed here does
not affect lookups or reverse lookups. -/
def getHashMapping : List (String × HASHAlgo) :=
  [("CRC32", HASHAlgoCRC32), ("MD5", HASHAlgoMD5), ("SHA-1", HASHAlgoSHA1),
   ("SHA-256", HASHAlgoSHA256), ("SHA-512", HASHAlgoSHA512)]

/-- Go map indexing `hashMapping[name]` with its `ok` flag. -/
def lookupHash (name : String) : Option HASHAlgo :=
  (getHashMapping.find? (fun kv => kv.1 == name)).map Prod.snd

/-- The reverse-lookup loop used by `handleOPTS` and `handleGenericHash`:
iterate the registry and keep the last name whose algorithm matches. -/
def hashNameOf (algo : HASHAlgo) : String :=
  getHashMapping.foldl (fun acc kv => if kv.2 = algo then kv.1 else acc) ""

/-- Membership of an algorithm value in the registry (as a Bool). -/
def algoInMapping (a : HASHAlgo) : Bool :=
  getHashMapping.any (fun kv => kv.2 == a)

/-! ## Errors and the abstract file-handle contract -/

/-- Error values observable by the embedded handlers.  `eof` models Go
`io.EOF`; the others are distinct error sentinels produced by the driver, the
handle, or the hashing routine. -/
inductive GoErr where
  | eof
  | readFault
  | seekFailed
  | openFailed
  | statFailed
  | unknowHash
deriving DecidableEq, Repr

/-- Model of the driver-supplied file handle (spec section 6: `Read`,
`Seek(offset, whence)`, scoped `Close`): the full byte contents visible to
the handle, the current position, an optional absolute position at which a
read faults with a non-EOF error, and whether `Seek` fails. -/
structure FTHandle where
  bytes : List Nat
  pos : Nat
  failAt : Option Nat
  seekFails : Bool
deriving DecidableEq, Repr

/-- Model of Go `io.CopyN(dst, src, n)` reading from an `FTHandle` and writing
into the digest engine: returns the bytes actually copied and the error.
Copying exactly `n` bytes (or being asked for `n ≤ 0`) returns no error;
exhausting the source early returns `io.EOF`; a read fault positioned before
both the byte budget and end-of-file is returned as-is. -/
def copyN (h : FTHandle) (n : Int) : List Nat × Option GoErr :=
  if n ≤ 0 then ([], none)
  else
    let budget := n.toNat
    let avail := h.bytes.drop h.pos
    match h.failAt with
    | some k =>
      if k < h.bytes.length ∧ k < h.pos + budget then
        (avail.take (k - h.pos), some GoErr.readFault)
      else if budget ≤ avail.length then (avail.take budget, none)
      else (avail, some GoErr.eof)
    | none =>
      if budget ≤ avail.length then (avail.take budget, none)
      else (avail, some GoErr.eof)

/-- Side effects of one hashing call, reified: handle acquisition through
either driver capability, explicit seeks, and handle closes. -/
inductive HashEvent where
  | getHandleCall (path : String) (offset : Int)
  | openFileCall (path : String)
  | seekCall (offset : Int)
  | closeCall
deriving DecidableEq, Repr

/-- Abstract storage driver as consumed by `computeHashForFile`: whether the
concrete driver satisfies the `ClientDriverExtentionFileTransfer` capability,
and the results of `GetHandle` and `OpenFile`. -/
structure HashDriver where
  extCap : Bool
  getHandle : String → Int → Except GoErr FTHandle
  openFile : String → Except GoErr FTHandle

/-- Handle-acquisition events of `computeHashForFile` (capability probe). -/
def openEvents (d : HashDriver) (filePath : String) (start : Int) : List HashEvent :=
  if d.extCap then [HashEvent.getHandleCall filePath start]
  else [HashEvent.openFileCall filePath]

/-- The error check following `io.CopyN` in the source:
`if err != nil && err != io.EOF { return "", err }` — an EOF from `CopyN`
(early end-of-stream) is accepted and the digest of the bytes actually read
is returned. -/
def finishCopy (fed : List Nat) (cerr : Option GoErr) : Except GoErr (List Nat) :=
  match cerr with
  | some e => if e = GoErr.eof then Except.ok fed else Except.error e
  | none => Except.ok fed

/-- Embedding of `computeHashForFile` (source lines 336-381).  The digest
engine (Go crypto library, external) is abstracted: a successful result
carries the exact byte sequence streamed into the engine, of which the
rendered lowercase-hex digest is an injective function.  The event list
records handle acquisition, seeks and closes in program order.  Note the
source registers `defer file.Close()` only after the `io.CopyN` call, so the
seek-failure return path emits no close event. -/
def computeHashForFile (d : HashDriver) (filePath : String) (algo : HASHAlgo)
    (start endp : Int) : Except GoErr (List Nat) × List HashEvent :=
  if algo = HASHAlgoCRC32 ∨ algo = HASHAlgoMD5 ∨ algo = HASHAlgoSHA1 ∨
      algo = HASHAlgoSHA256 ∨ algo = HASHAlgoSHA512 then
    match (if d.extCap then d.getHandle filePath start else d.openFile filePath) with
    | Except.error e => (Except.error e, openEvents d filePath start)
    | Except.ok file =>
      if start > 0 then
        if file.seekFails then
          (Except.error GoErr.seekFailed,
           openEvents d filePath start ++ [HashEvent.seekCall start])
        else
          let r := copyN { file with pos := start.toNat } (endp - start)
          (finishCopy r.1 r.2,
           openEvents d filePath start ++ [HashEvent.seekCall start, HashEvent.closeCall])
      else
        let r := copyN file (endp - start)
        (finishCopy r.1 r.2, openEvents d filePath start ++ [HashEvent.closeCall])
  else (Except.error GoErr.unknowHash, [])

/-! ## The generic hash command handler -/

/-- Result of the driver `Stat` call: size and regular-file mode bit. -/
structure StatInfo where
  size : Int
  isRegular : Bool
deriving DecidableEq, Repr

/-- Server settings consumed by the handlers in this file. -/
structure Settings where
  DisableSite : Bool
  DisableMLSD : Bool
  DisableMLST : Bool
  DisableMFMT : Bool
  EnableHASH : Bool
deriving DecidableEq, Repr

/-- Environment of a client handler: server settings, the driver's TLS
configuration result (configuration presence, error presence), the driver
`Stat` call, the hashing driver surface, and the (external) `absPath`
resolution. -/
structure Env where
  settings : Settings
  getTLSConfig : Option Unit × Option String
  stat : String → Except GoErr StatInfo
  hd : HashDriver
  absPath : String → String

/-- Structured protocol replies written by `handleGenericHash`; each
constructor records the data embedded in the corresponding `writeMessage`
call of the source. -/
inductive GHReply where
  | statFailed (param : String) (e : GoErr)
  | notRegular (param : String)
  | badStart (tok : String)
  | badEnd (tok : String)
  | hashFailed (arg0 : String) (e : GoErr)
  | customOk (algoName : String) (digest : List Nat)
  | hashOk (algoName : String) (start endp : Int) (digest : List Nat) (arg0 : String)
deriving DecidableEq, Repr

/-- Status code of each `handleGenericHash` reply, as in the source's
`writeMessage` calls. -/
def GHReply.status : GHReply → Nat
  | GHReply.statFailed _ _ => StatusActionNotTaken
  | GHReply.notRegular _ => StatusActionNotTakenNoFile
  | GHReply.badStart _ => StatusSyntaxErrorParameters
  | GHReply.badEnd _ => StatusSyntaxErrorParameters
  | GHReply.hashFailed _ _ => StatusActionNotTaken
  | GHReply.customOk _ _ => StatusFileOK
  | GHReply.hashOk _ _ _ _ _ => StatusFileStatus

/-- Tail of `handleGenericHash` after range determination (source lines
287-312): run `computeHashForFile`, convert an error into an action-not-taken
reply, and otherwise render the mode-dependent success reply with the
reverse-looked-up algorithm name. -/
def ghFinish (env : Env) (arg0 : String) (algo : HASHAlgo) (isCustomMode : Bool)
    (start endp : Int) : GHReply × List HashEvent :=
  let r := computeHashForFile env.hd (env.absPath arg0) algo start endp
  match r.1 with
  | Except.error e => (GHReply.hashFailed arg0 e, r.2)
  | Except.ok digest =>
    if isCustomMode then (GHReply.customOk (hashNameOf algo) digest, r.2)
    else (GHReply.hashOk (hashNameOf algo) start endp digest arg0, r.2)

/-- Embedding of `handleGenericHash` (source lines 247-313): split the
parameter, stat the target, require a regular file, determine the range
(defaults `0 .. size`; explicit bounds only in custom mode, with parse
errors reported per token) and delegate to the hashing primitive. -/
def handleGenericHash (env : Env) (param : String) (algo : HASHAlgo)
    (isCustomMode : Bool) : GHReply × List HashEvent :=
  let args := stringsSplitN param ' ' 3
  let arg0 := args.headD ""
  match env.stat arg0 with
  | Except.error e => (GHReply.statFailed param e, [])
  | Except.ok info =>
    if !info.isRegular then (GHReply.notRegular param, [])
    else
      if isCustomMode then
        match args.get? 1 with
        | none => ghFinish env arg0 algo isCustomMode 0 info.size
        | some a1 =>
          match parseInt64 a1 with
          | none => (GHReply.badStart a1, [])
          | some st =>
            match args.get? 2 with
            | none => ghFinish env arg0 algo isCustomMode st info.size
            | some a2 =>
              match parseInt64 a2 with
              | none => (GHReply.badEnd a2, [])
              | some en => ghFinish env arg0 algo isCustomMode st en
      else ghFinish env arg0 algo isCustomMode 0 info.size

/-! ## Session state and the remaining handlers -/

/-- Model of a control connection: an identifier for the underlying socket
and whether the stream is TLS-wrapped. -/
structure Conn where
  underlying : Nat
  isTLS : Bool
deriving DecidableEq, Repr

/-- Modelled from the spec: the per-connection session state of the client
handler (`clientHandler` is declared outside the provided source slice).
`reader` and `writer` record which connection value the buffered reader and
writer are currently bound to (`reader = none` after QUIT). -/
structure Session where
  conn : Conn
  reader : Option Conn
  writer : Conn
  controlTLS : Bool
  transferTLS : Bool
  selectedHashAlgo : HASHAlgo
  clnt : String
  user : String
  param : String
deriving DecidableEq, Repr

/-- Model of Go `tls.Server(conn, config)`: the same underlying connection,
now TLS-wrapped. -/
def tlsServer (c : Conn) : Conn := { underlying := c.underlying, isTLS := true }

/-- A reply together with the connection the writer was bound to when the
reply was written (so reply/upgrade ordering is observable). -/
abbrev ReplyEvent := (Nat × String) × Conn

/-- Embedding of `handleAUTH` (source lines 25-37): on a TLS-config error the
session is left untouched and an action-not-taken reply is written; otherwise
the affirmative reply is written through the still-plaintext writer, after
which the connection is replaced by its TLS-wrapped version, the buffered
reader and writer are re-bound to it, and `controlTLS` is set. -/
def handleAUTH (tlsRes : Option Unit × Option String) (s : Session) :
    Session × List ReplyEvent :=
  match tlsRes.2 with
  | none =>
    let ev : ReplyEvent :=
      ((StatusAuthAccepted, "AUTH command ok. Expecting TLS Negotiation."), s.writer)
    let newConn := tlsServer s.conn
    ({ s with conn := newConn, reader := some newConn, writer := newConn,
              controlTLS := true }, [ev])
  | some e =>
    (s, [((StatusActionNotTaken, "Cannot get a TLS config: " ++ e), s.writer)])

/-- Embedding of `handlePROT` (source lines 39-45). -/
def handlePROT (s : Session) : Session × (Nat × String) :=
  ({ s with transferTLS := s.param == "P" }, (StatusOK, "OK"))

/-- Embedding of `handlePBSZ` (source lines 47-50). -/
def handlePBSZ (s : Session) : Session × (Nat × String) :=
  (s, (StatusOK, "Whatever"))

/-- Embedding of `handleSYST` (source lines 52-55). -/
def handleSYST (s : Session) : Session × (Nat × String) :=
  (s, (StatusSystemType, "UNIX Type: L8"))

/-- Embedding of `handleNOOP` (source lines 155-158). -/
def handleNOOP (s : Session) : Session × (Nat × String) :=
  (s, (StatusOK, "OK"))

/-- Embedding of `handleCLNT` (source lines 160-165). -/
def handleCLNT (s : Session) : Session × (Nat × String) :=
  ({ s with clnt := s.param }, (StatusOK, "Good to know"))

/-- Embedding of `handleTYPE` (source lines 315-326). -/
def handleTYPE (s : Session) : Session × (Nat × String) :=
  match s.param with
  | "I" => (s, (StatusOK, "Type set to binary"))
  | "A" => (s, (StatusOK, "ASCII isn\x27t properly supported"))
  | _ => (s, (StatusSyntaxErrorNotRecognised, "Not understood"))

/-- Embedding of `handleQUIT` (source lines 328-334): goodbye reply,
disconnect (external), and the buffered reader is dropped. -/
def handleQUIT (s : Session) : Session × (Nat × String) :=
  ({ s with reader := none }, (StatusClosingControlConn, "Goodbye"))

/-- Outcome of `handleSITE`: which dedicated subcommand handler (external
collaborator) is invoked with which remainder, or which refusal reply is
written. -/
inductive SiteOutcome where
  | disabled
  | chmod (arg : String)
  | chown (arg : String)
  | symlink (arg : String)
  | notUnderstood
deriving DecidableEq, Repr

/-- Embedding of `handleSITE` (source lines 66-90): refuse when disabled,
split the parameter once, uppercase the subcommand token, and dispatch;
anything not dispatched falls through to the not-understood reply. -/
def handleSITE (disableSite : Bool) (param : String) : SiteOutcome :=
  if disableSite then SiteOutcome.disabled
  else
    let spl := stringsSplitN param ' ' 2
    match spl.get? 1 with
    | some rest =>
      if goToUpper (spl.headD "") = "CHMOD" then SiteOutcome.chmod rest
      else if goToUpper (spl.headD "") = "CHOWN" then SiteOutcome.chown rest
      else if goToUpper (spl.headD "") = "SYMLINK" then SiteOutcome.symlink rest
      else SiteOutcome.notUnderstood
    | none => SiteOutcome.notUnderstood

/-- Embedding of `handleOPTS` (source lines 115-153): `UTF8` acknowledged
without state change; `HASH` (gated on the hash extension) either assigns the
looked-up algorithm and echoes the requested name, reports an unknown
algorithm leaving the selection unchanged, or reverse-looks-up and reports
the current selection; anything else is not recognised. -/
def handleOPTS (enableHASH : Bool) (s : Session) : Session × (Nat × String) :=
  let args := stringsSplitN s.param ' ' 2
  let a0 := args.headD ""
  if equalFold a0 "UTF8" then (s, (StatusOK, "I\x27m in UTF8 only anyway"))
  else if equalFold a0 "HASH" && enableHASH then
    match args.get? 1 with
    | some a1 =>
      match lookupHash a1 with
      | some v => ({ s with selectedHashAlgo := v }, (StatusOK, a1))
      | none =>
        (s, (StatusSyntaxErrorParameters, "Unknown algorithm, current selection not changed"))
    | none => (s, (StatusOK, hashNameOf s.selectedHashAlgo))
  else (s, (StatusSyntaxErrorNotRecognised, "Don\x27t know this option"))

/-- The composite FEAT hash line (source lines 197-212): every registry name,
the currently selected algorithm's name suffixed with `*`, each followed by
`;`. -/
def hashLineFor (algo : HASHAlgo) : String :=
  getHashMapping.foldl
    (fun acc kv => acc ++ kv.1 ++ (if kv.2 = algo then "*" else "") ++ ";") ""

/-- Body token list of the FEAT reply (source lines 171-214): fixed baseline,
conditional directory/modify extensions, `AUTH TLS` exactly when the driver
returns a non-nil, error-free TLS configuration, and — when the hash
extension is enabled — the composite hash line followed by the legacy
per-algorithm command names. -/
def featFeatures (st : Settings) (tlsRes : Option Unit × Option String)
    (algo : HASHAlgo) : List String :=
  let features := ["CLNT", "UTF8", "SIZE", "MDTM", "REST STREAM"]
  let features := if !st.DisableMLSD then features ++ ["MLSD"] else features
  let features := if !st.DisableMLST then features ++ ["MLST"] else features
  let features := if !st.DisableMFMT then features ++ ["MFMT"] else features
  let features :=
    if tlsRes.1.isSome && tlsRes.2.isNone then features ++ ["AUTH TLS"] else features
  let features :=
    if st.EnableHASH then
      (features ++ [hashLineFor algo]) ++
        ["XCRC", "MD5", "XMD5", "XSHA", "XSHA1", "XSHA256", "XSHA512"]
    else features
  features

/-- Embedding of `handleFEAT` (source lines 167-221) as the written lines:
multi-line header, one space-prefixed line per feature token, and the
deferred end line. -/
def handleFEAT (st : Settings) (tlsRes : Option Unit × Option String)
    (algo : HASHAlgo) : List String :=
  (toString StatusSystemStatus ++ "- These are my features") ::
    ((featFeatures st tlsRes algo).map (fun f => " " ++ f) ++
      [toString StatusSystemStatus ++ " end"])

/-- The command verbs whose handlers are defined in the source file. -/
inductive Command where
  | auth | prot | pbsz | syst | stat | site | opts | noop | clnt | feat
  | hashCmd | crc32 | md5 | sha1 | sha256 | sha512 | typeCmd | quit
deriving DecidableEq, Repr

/-- Session-state effect of dispatching one command to its handler.
Handlers that only write output and never touch the session's mutable fields
(STAT, SITE, FEAT and the hashing commands — see their embeddings and source
lines 57-113, 167-245) leave the state unchanged here. -/
def handleCommand (env : Env) (cmd : Command) (s : Session) : Session :=
  match cmd with
  | Command.auth => (handleAUTH env.getTLSConfig s).1
  | Command.prot => (handlePROT s).1
  | Command.pbsz => (handlePBSZ s).1
  | Command.syst => (handleSYST s).1
  | Command.stat => s
  | Command.site => s
  | Command.opts => (handleOPTS env.settings.EnableHASH s).1
  | Command.noop => (handleNOOP s).1
  | Command.clnt => (handleCLNT s).1
  | Command.feat => s
  | Command.hashCmd => s
  | Command.crc32 => s
  | Command.md5 => s
  | Command.sha1 => s
  | Command.sha256 => s
  | Command.sha512 => s
  | Command.typeCmd => (handleTYPE s).1
  | Command.quit => (handleQUIT s).1

/-- A whole command sequence processed on one session. -/
def runSession (env : Env) (cmds : List Command) (s : Session) : Session :=
  cmds.foldl (fun st c => handleCommand env c st) s

/-- Embedding of `handleHASH` (source lines 223-225): negotiated algorithm. -/
def handleHASH (env : Env) (s : Session) : GHReply × List HashEvent :=
  handleGenericHash env s.param s.selectedHashAlgo false

/-- Embedding of `handleCRC32` (source lines 227-229). -/
def handleCRC32 (env : Env) (param : String) : GHReply × List HashEvent :=
  handleGenericHash env param HASHAlgoCRC32 true

/-- Embedding of `handleMD5` (source lines 231-233). -/
def handleMD5 (env : Env) (param : String) : GHReply × List HashEvent :=
  handleGenericHash env param HASHAlgoMD5 true

/-- Embedding of `handleSHA1` (source lines 235-237). -/
def handleSHA1 (env : Env) (param : String) : GHReply × List HashEvent :=
  handleGenericHash env param HASHAlgoSHA1 true

/-- Embedding of `handleSHA256` (source lines 239-241). -/
def handleSHA256 (env : Env) (param : String) : GHReply × List HashEvent :=
  handleGenericHash env param HASHAlgoSHA256 true

/-- Embedding of `handleSHA512` (source lines 243-245). -/
def handleSHA512 (env : Env) (param : String) : GHReply × List HashEvent :=
  handleGenericHash env param HASHAlgoSHA512 true

/-! ## Helper lemmas about the hashing primitive -/

/-- Run lemma: under a successful handle acquisition and a non-failing seek,
`computeHashForFile` is the post-seek copy followed by the EOF-tolerant error
check, with the handle closed after the copy. -/
theorem computeHashForFile_run (d : HashDriver) (p : String) (algo : HASHAlgo)
    (start endp : Int) (file : FTHandle)
    (hsupp : algo = HASHAlgoCRC32 ∨ algo = HASHAlgoMD5 ∨ algo = HASHAlgoSHA1 ∨
      algo = HASHAlgoSHA256 ∨ algo = HASHAlgoSHA512)
    (hopen : (if d.extCap then d.getHandle p start else d.openFile p) = Except.ok file)
    (hseek : file.seekFails = false) :
    computeHashForFile d p algo start endp =
      (finishCopy
        (copyN (if start > 0 then { file with pos := start.toNat } else file) (endp - start)).1
        (copyN (if start > 0 then { file with pos := start.toNat } else file) (endp - start)).2,
       openEvents d p start ++
         (if start > 0 then [HashEvent.seekCall start] else []) ++
         [HashEvent.closeCall]) := by
  unfold computeHashForFile
  rw [if_pos hsupp, hopen]
  by_cases hs : start > 0
  · simp [hs, hseek]
  · simp [hs]

/-- When no read fault is present and the byte budget does not exceed the
bytes available after the current position, `copyN` copies exactly the budget
and reports no error. -/
theorem copyN_none_enough (h : FTHandle) (n : Int) (hf : h.failAt = none)
    (hlen : n ≤ ((h.bytes.drop h.pos).length : Int)) :
    copyN h n = ((h.bytes.drop h.pos).take n.toNat, none) := by
  unfold copyN
  by_cases hn : n ≤ 0
  · rw [if_pos hn]
    have h0 : n.toNat = 0 := Int.toNat_of_nonpos hn
    simp [h0]
  · rw [if_neg hn, hf]
    have hb : n.toNat ≤ (h.bytes.drop h.pos).length := by
      rw [Int.toNat_le]
      exact hlen
    simp only [hb, if_true, if_pos]

/-- When no read fault is present and fewer bytes than the budget are
available, `copyN` copies everything available and reports `io.EOF`. -/
theorem copyN_none_eof (h : FTHandle) (n : Int) (hf : h.failAt = none)
    (hlen : ((h.bytes.drop h.pos).length : Int) < n) :
    copyN h n = (h.bytes.drop h.pos, some GoErr.eof) := by
  unfold copyN
  have hn : ¬ n ≤ 0 := by
    intro hc
    have : ((h.bytes.drop h.pos).length : Int) < 0 := lt_of_lt_of_le hlen hc
    omega
  rw [if_neg hn, hf]
  have hb : ¬ n.toNat ≤ (h.bytes.drop h.pos).length := by
    have : (h.bytes.drop h.pos).length < n.toNat := by
      rw [Int.lt_toNat]
      exact hlen
    omega
  simp only [hb, if_neg, if_false]

/-- When a read fault is positioned strictly before both end-of-file and the
byte budget, `copyN` copies the bytes up to the fault and reports the fault. -/
theorem copyN_fault (h : FTHandle) (n : Int) (k : Nat) (hf : h.failAt = some k)
    (hk1 : k < h.bytes.length) (hk2 : k < h.pos + n.toNat) (hn : 0 < n) :
    copyN h n = ((h.bytes.drop h.pos).take (k - h.pos), some GoErr.readFault) := by
  unfold copyN
  rw [if_neg (by omega), hf]
  simp [hk1, hk2]

/-! ## Claim C1: byte streaming of computeHashForFile -/

/-- Concrete driver for C1: no offset capability, a 3-byte file, no faults. -/
def hdC1 : HashDriver :=
  { extCap := false,
    getHandle := fun _ _ => Except.error GoErr.openFailed,
    openFile := fun _ => Except.ok { bytes := [1, 2, 3], pos := 0, failAt := none, seekFails := false } }

/-- Claim C1, counterexample: hashing the range `(0, 5)` of a 3-byte file
reaches end-of-stream after only 3 of the 5 budgeted bytes, yet
`computeHashForFile` returns a digest (over the 3 bytes actually read)
instead of the error required by the claim — the source accepts `io.EOF`
from `io.CopyN`. -/
theorem computeHashForFile_earlyEOF_cex :
    (computeHashForFile hdC1 "f" HASHAlgoSHA256 0 5).1 = Except.ok [1, 2, 3] := by
  rfl

/-- Claim C1, amended: for every path, supported algorithm and range,
`computeHashForFile` streams at most `end − start` bytes from the positioned
handle into the digest engine; reaching end-of-stream at or before the byte
budget is a success returning the digest over the bytes actually read
(exactly `end − start` of them when that many are available), while any
non-EOF read fault makes it return an error rather than a digest. -/
theorem computeHashForFile_stream_amended
    (d : HashDriver) (p : String) (algo : HASHAlgo) (start endp : Int)
    (file f2 : FTHandle)
    (hsupp : algo = HASHAlgoCRC32 ∨ algo = HASHAlgoMD5 ∨ algo = HASHAlgoSHA1 ∨
      algo = HASHAlgoSHA256 ∨ algo = HASHAlgoSHA512)
    (hopen : (if d.extCap then d.getHandle p start else d.openFile p) = Except.ok file)
    (hseek : file.seekFails = false)
    (hf2 : f2 = if start > 0 then { file with pos := start.toNat } else file) :
    (f2.failAt = none →
       (endp - start ≤ ((f2.bytes.drop f2.pos).length : Int) →
          (computeHashForFile d p algo start endp).1 =
            Except.ok ((f2.bytes.drop f2.pos).take (endp - start).toNat))
       ∧ (((f2.bytes.drop f2.pos).length : Int) < endp - start →
          (computeHashForFile d p algo start endp).1 =
            Except.ok (f2.bytes.drop f2.pos)))
    ∧ (∀ k, f2.failAt = some k → k < f2.bytes.length →
        k < f2.pos + (endp - start).toNat → 0 < endp - start →
        (computeHashForFile d p algo start endp).1 = Except.error GoErr.readFault) := by
  have hrun := computeHashForFile_run d p algo start endp file hsupp hopen hseek
  rw [← hf2] at hrun
  constructor
  · intro hnone
    constructor
    · intro hle
      rw [hrun, copyN_none_enough f2 (endp - start) hnone hle]
      rfl
    · intro hlt
      rw [hrun, copyN_none_eof f2 (endp - start) hnone hlt]
      rfl
  · intro k hk hk1 hk2 hn
    rw [hrun, copyN_fault f2 (endp - start) k hk hk1 hk2 hn]
    rfl

/-- Witness for the amended C1 theorem: a driver without the offset
capability, a 3-byte file, range `(1, 3)` — exactly 2 bytes are streamed and
the call succeeds with the digest over bytes `[2, 3]`. -/
theorem computeHashForFile_stream_amended_witness :
    (computeHashForFile hdC1 "f" HASHAlgoSHA256 1 3).1 = Except.ok [2, 3] := by
  have h := computeHashForFile_stream_amended hdC1 "f" HASHAlgoSHA256 1 3
    { bytes := [1, 2, 3], pos := 0, failAt := none, seekFails := false }
    { bytes := [1, 2, 3], pos := 1, failAt := none, seekFails := false }
    (by decide) (by rfl) (by rfl) (by decide)
  have h2 := (h.1 (by rfl)).1 (by decide)
  simpa using h2

/-! ## Claim C2: handle release discipline -/

/-- Concrete driver for C2: no offset capability, `OpenFile` succeeds, and
the returned handle's `Seek` fails. -/
def hdC2 : HashDriver :=
  { extCap := false,
    getHandle := fun _ _ => Except.error GoErr.openFailed,
    openFile := fun _ => Except.ok { bytes := [1, 2, 3], pos := 0, failAt := none, seekFails := true } }

/-- Claim C2 is right about the intent but the code violates it: the source
registers `defer file.Close()` only after the `io.CopyN` call, so when the
explicit `Seek` (taken when `start > 0`) fails, `computeHashForFile` returns
the seek error with the successfully opened handle never closed.  At the
failing input (no offset capability, `OpenFile` succeeds, `start = 1`, seek
fails) the event trace contains the handle acquisition but no close. -/
theorem computeHashForFile_seekFail_leak :
    computeHashForFile hdC2 "f" HASHAlgoMD5 1 3 =
      (Except.error GoErr.seekFailed,
       [HashEvent.openFileCall "f", HashEvent.seekCall 1])
    ∧ HashEvent.closeCall ∉ (computeHashForFile hdC2 "f" HASHAlgoMD5 1 3).2 := by
  constructor
  · rfl
  · decide

/-! ## Claim C4: capability probing and seeking -/

/-- Concrete driver for C4: the offset capability is present and `GetHandle`
returns a handle already positioned at the requested offset. -/
def hdC4 : HashDriver :=
  { extCap := true,
    getHandle := fun _ off => Except.ok { bytes := [7, 8, 9], pos := off.toNat, failAt := none, seekFails := false },
    openFile := fun _ => Except.error GoErr.openFailed }

/-- Claim C4, counterexample: with the offset-capable driver and
`start = 1 > 0`, the source still performs an explicit `Seek` on the handle
obtained from `GetHandle` — the seek is not skipped as the claim states. -/
theorem computeHashForFile_extSeek_cex :
    HashEvent.seekCall 1 ∈ (computeHashForFile hdC4 "f" HASHAlgoCRC32 1 3).2
    ∧ HashEvent.getHandleCall "f" 1 ∈ (computeHashForFile hdC4 "f" HASHAlgoCRC32 1 3).2 := by
  decide

/-- Claim C4, amended: when the driver satisfies the extended offset-capable
capability, `computeHashForFile` requests a handle already positioned at
`start` via `GetHandle`; otherwise it opens the file generically.  In both
cases, whenever a handle is obtained, it then performs an explicit absolute
seek exactly when `start > 0` (on the capable path this seek is redundant but
position-preserving, since it is an absolute seek to `start`). -/
theorem computeHashForFile_handle_amended
    (d : HashDriver) (p : String) (algo : HASHAlgo) (start endp : Int)
    (hsupp : algo = HASHAlgoCRC32 ∨ algo = HASHAlgoMD5 ∨ algo = HASHAlgoSHA1 ∨
      algo = HASHAlgoSHA256 ∨ algo = HASHAlgoSHA512) :
    (d.extCap = true →
       (computeHashForFile d p algo start endp).2.head? =
         some (HashEvent.getHandleCall p start)
       ∧ ∀ q, HashEvent.openFileCall q ∉ (computeHashForFile d p algo start endp).2)
    ∧ (d.extCap = false →
       (computeHashForFile d p algo start endp).2.head? =
         some (HashEvent.openFileCall p)
       ∧ ∀ q off, HashEvent.getHandleCall q off ∉ (computeHashForFile d p algo start endp).2)
    ∧ (∀ file,
        (if d.extCap then d.getHandle p start else d.openFile p) = Except.ok file →
        (HashEvent.seekCall start ∈ (computeHashForFile d p algo start endp).2 ↔ start > 0)) := by
  unfold computeHashForFile
  rw [if_pos hsupp]
  refine ⟨?_, ?_, ?_⟩
  · intro hext
    cases hop : (if d.extCap then d.getHandle p start else d.openFile p) with
    | error e =>
      simp [openEvents, hext]
    | ok file =>
      by_cases hs : start > 0
      · by_cases hsf : file.seekFails <;>
          simp [hs, hsf, openEvents, hext]
      · simp [hs, openEvents, hext]
  · intro hext
    cases hop : (if d.extCap then d.getHandle p start else d.openFile p) with
    | error e =>
      simp [openEvents, hext]
    | ok file =>
      by_cases hs : start > 0
      · by_cases hsf : file.seekFails <;>
          simp [hs, hsf, openEvents, hext]
      · simp [hs, openEvents, hext]
  · intro file hop
    rw [hop]
    by_cases hs : start > 0
    · by_cases hsf : file.seekFails <;>
        simp [hs, hsf, openEvents]
    · cases hE : d.extCap <;> simp [hs, openEvents, hE]

/-- Witness for the amended C4 theorem: on the capable driver with
`start = 1` the first event is the positioned `GetHandle`, no generic open
occurs, and a seek is performed (since `start > 0`). -/
theorem computeHashForFile_handle_amended_witness :
    (computeHashForFile hdC4 "f" HASHAlgoCRC32 1 3).2.head? =
      some (HashEvent.getHandleCall "f" 1)
    ∧ HashEvent.seekCall 1 ∈ (computeHashForFile hdC4 "f" HASHAlgoCRC32 1 3).2 := by
  have h := computeHashForFile_handle_amended hdC4 "f" HASHAlgoCRC32 1 3 (by decide)
  refine ⟨(h.1 rfl).1, ?_⟩
  have h3 := h.2.2 { bytes := [7, 8, 9], pos := 1, failAt := none, seekFails := false } (by rfl)
  exact h3.mpr (by decide)

/-! ## Claim C3: range validation of the hash commands -/

/-- `io.CopyN` with a nonpositive byte budget copies nothing and returns no
error (in Go, `written == n` only fails towards `io.EOF` when `written < n`,
which cannot happen for `n ≤ 0`). -/
theorem copyN_nonpos (h : FTHandle) (n : Int) (hn : n ≤ 0) :
    copyN h n = ([], none) := by
  unfold copyN
  rw [if_pos hn]

/-- Concrete environment for C3: `Stat` reports a 5-byte regular file and the
driver serves a fault-free 5-byte handle. -/
def envC3 : Env :=
  { settings :=
      { DisableSite := false, DisableMLSD := false, DisableMLST := false,
        DisableMFMT := false, EnableHASH := true },
    getTLSConfig := (none, none),
    stat := fun _ => Except.ok { size := 5, isRegular := true },
    hd :=
      { extCap := false,
        getHandle := fun _ _ => Except.error GoErr.openFailed,
        openFile := fun _ =>
          Except.ok { bytes := [10, 20, 30, 40, 50], pos := 0, failAt := none, seekFails := false } },
    absPath := fun s => s }

/-- Claim C3, counterexample: on a regular 5-byte file, the custom-mode range
`(4, 2)` (with `end < start`) yields a file-OK success reply whose digest is
computed over the empty range, and the range `(0, 9)` (with `end > size`)
yields a success reply whose digest is computed over the silently clamped
range `[0, 5)` — in both cases no error reply is written, contrary to the
claim. -/
theorem handleGenericHash_range_cex :
    (handleGenericHash envC3 "f 4 2" HASHAlgoSHA1 true).1 =
      GHReply.customOk "SHA-1" []
    ∧ (handleGenericHash envC3 "f 0 9" HASHAlgoSHA1 true).1 =
      GHReply.customOk "SHA-1" [10, 20, 30, 40, 50]
    ∧ (GHReply.customOk "SHA-1" []).status = StatusFileOK := by
  refine ⟨by rfl, by rfl, by rfl⟩

/-- Claim C3, amended: the code performs no range validation.  For every hash
command on a regular file whose handle holds `content`, a requested range
with `end < start` produces a success reply whose digest is computed over
zero bytes, and a range with `end > size` (and `0 ≤ start ≤ size`) produces a
success reply whose digest is computed over the silently clamped range
`[start, size)`; no error reply is produced for either violation. -/
theorem ghFinish_range_amended
    (env : Env) (arg0 : String) (algo : HASHAlgo) (mode : Bool)
    (start endp : Int) (content : List Nat)
    (hsupp : algo = HASHAlgoCRC32 ∨ algo = HASHAlgoMD5 ∨ algo = HASHAlgoSHA1 ∨
      algo = HASHAlgoSHA256 ∨ algo = HASHAlgoSHA512)
    (hext : env.hd.extCap = false)
    (hopen : env.hd.openFile (env.absPath arg0) =
      Except.ok { bytes := content, pos := 0, failAt := none, seekFails := false }) :
    (endp < start →
       (ghFinish env arg0 algo mode start endp).1 =
         (if mode then GHReply.customOk (hashNameOf algo) []
          else GHReply.hashOk (hashNameOf algo) start endp [] arg0))
    ∧ (0 ≤ start → start ≤ (content.length : Int) → (content.length : Int) < endp →
       (ghFinish env arg0 algo mode start endp).1 =
         (if mode then GHReply.customOk (hashNameOf algo) (content.drop start.toNat)
          else GHReply.hashOk (hashNameOf algo) start endp (content.drop start.toNat) arg0)) := by
  have hopen' : (if env.hd.extCap then env.hd.getHandle (env.absPath arg0) start
      else env.hd.openFile (env.absPath arg0)) =
      Except.ok { bytes := content, pos := 0, failAt := none, seekFails := false } := by
    rw [hext]
    simpa using hopen
  have hrun := computeHashForFile_run env.hd (env.absPath arg0) algo start endp
    { bytes := content, pos := 0, failAt := none, seekFails := false } hsupp hopen' rfl
  constructor
  · intro hlt
    unfold ghFinish
    rw [hrun, copyN_nonpos _ _ (by omega)]
    cases mode <;> simp [finishCopy]
  · intro h0 h1 h2
    by_cases hs : start > 0
    · have hcopy := copyN_none_eof
        { bytes := content, pos := start.toNat, failAt := none, seekFails := false }
        (endp - start) rfl
        (by simp only [List.length_drop]; omega)
      unfold ghFinish
      rw [hrun, if_pos hs]
      simp only at hcopy
      rw [hcopy]
      cases mode <;> simp [finishCopy]
    · have hs0 : start = 0 := by omega
      subst hs0
      have hcopy := copyN_none_eof
        { bytes := content, pos := 0, failAt := none, seekFails := false }
        (endp - 0) rfl
        (by simp only [List.length_drop]; omega)
      unfold ghFinish
      rw [hrun, if_neg hs]
      rw [hcopy]
      cases mode <;> simp [finishCopy]

/-- Witness for the amended C3 theorem: on the concrete 5-byte environment,
range `(4, 2)` succeeds with the empty digest and range `(0, 9)` succeeds
with the digest of all 5 bytes. -/
theorem ghFinish_range_amended_witness :
    (ghFinish envC3 "f" HASHAlgoSHA1 true 4 2).1 = GHReply.customOk "SHA-1" []
    ∧ (ghFinish envC3 "f" HASHAlgoSHA1 true 0 9).1 =
      GHReply.customOk "SHA-1" [10, 20, 30, 40, 50] := by
  have h1 := (ghFinish_range_amended envC3 "f" HASHAlgoSHA1 true 4 2
    [10, 20, 30, 40, 50] (by decide) rfl rfl).1 (by decide)
  have h2 := (ghFinish_range_amended envC3 "f" HASHAlgoSHA1 true 0 9
    [10, 20, 30, 40, 50] (by decide) rfl rfl).2 (by decide) (by decide) (by decide)
  exact ⟨by simpa using h1, by simpa using h2⟩

/-! ## Claim C8: pre-flight validation of the hash commands -/

/-- Claim C8: for every hash command (the per-algorithm standing commands and
the negotiated HASH command both funnel through `handleGenericHash`, over all
algorithms and both modes), a failing `Stat` yields the action-not-taken
reply embedding the backend error, and a non-regular target yields the
distinct "no such file" class reply; in both cases the event trace is empty —
no file handle is opened and no digest is computed. -/
theorem handleGenericHash_preflight_spec
    (env : Env) (param : String) (algo : HASHAlgo) (mode : Bool) :
    (∀ e, env.stat ((stringsSplitN param ' ' 3).headD "") = Except.error e →
       handleGenericHash env param algo mode = (GHReply.statFailed param e, [])
       ∧ (GHReply.statFailed param e).status = StatusActionNotTaken)
    ∧ (∀ info, env.stat ((stringsSplitN param ' ' 3).headD "") = Except.ok info →
       info.isRegular = false →
       handleGenericHash env param algo mode = (GHReply.notRegular param, [])
       ∧ (GHReply.notRegular param).status = StatusActionNotTakenNoFile) := by
  constructor
  · intro e he
    refine ⟨?_, rfl⟩
    simp only [handleGenericHash]
    rw [he]
  · intro info hok hreg
    refine ⟨?_, rfl⟩
    simp only [handleGenericHash]
    rw [hok]
    simp [hreg]

/-- Concrete environment for the C8 witness: `Stat` always fails. -/
def envC8 : Env :=
  { settings :=
      { DisableSite := false, DisableMLSD := false, DisableMLST := false,
        DisableMFMT := false, EnableHASH := true },
    getTLSConfig := (none, none),
    stat := fun _ => Except.error GoErr.statFailed,
    hd :=
      { extCap := false,
        getHandle := fun _ _ => Except.error GoErr.openFailed,
        openFile := fun _ => Except.error GoErr.openFailed },
    absPath := fun s => s }

/-- Witness for C8: with an always-failing `Stat`, the MD5 command on "f"
writes the action-not-taken reply and opens no handle. -/
theorem handleGenericHash_preflight_spec_witness :
    handleGenericHash envC8 "f" HASHAlgoMD5 true =
      (GHReply.statFailed "f" GoErr.statFailed, []) :=
  ((handleGenericHash_preflight_spec envC8 "f" HASHAlgoMD5 true).1
    GoErr.statFailed rfl).1

/-! ## Claim C5: AUTH and the control-channel TLS flag -/

/-- Each command handler preserves a set control-TLS flag (only `handleAUTH`
writes the flag, and only from `false` to `true`). -/
theorem controlTLS_step (env : Env) (cmd : Command) (s : Session)
    (h : s.controlTLS = true) : (handleCommand env cmd s).controlTLS = true := by
  cases cmd
  case auth =>
    simp only [handleCommand, handleAUTH]
    cases env.getTLSConfig.2 <;> simp [h]
  case opts =>
    simp only [handleCommand, handleOPTS]
    repeat' split
    all_goals simp [h]
  case typeCmd =>
    simp only [handleCommand, handleTYPE]
    split <;> simp [h]
  all_goals
    simp [handleCommand, handlePROT, handlePBSZ, handleSYST, handleNOOP,
      handleCLNT, handleQUIT, h]

/-- Claim C5: over any command sequence the control-channel TLS flag never
reverts once set (so it transitions false-to-true at most once per
connection); on AUTH with an unavailable TLS configuration the handler
writes the action-not-taken reply embedding the reason and leaves the whole
session (connection, reader, writer, flag) unchanged; with an available
configuration the affirmative reply is written through the writer still
bound to the pre-upgrade connection, and only then is the connection
replaced by the TLS wrap of the same underlying connection, the buffered
reader and writer re-bound to it, and the flag set. -/
theorem controlTLS_auth_spec :
    (∀ env cmds s, s.controlTLS = true → (runSession env cmds s).controlTLS = true)
    ∧ (∀ (tlsRes : Option Unit × Option String) s e, tlsRes.2 = some e →
        handleAUTH tlsRes s =
          (s, [((StatusActionNotTaken, "Cannot get a TLS config: " ++ e), s.writer)]))
    ∧ (∀ (tlsRes : Option Unit × Option String) s, tlsRes.2 = none →
        handleAUTH tlsRes s =
          ({ s with conn := tlsServer s.conn, reader := some (tlsServer s.conn),
                    writer := tlsServer s.conn, controlTLS := true },
           [((StatusAuthAccepted, "AUTH command ok. Expecting TLS Negotiation."),
             s.writer)])) := by
  refine ⟨?_, ?_, ?_⟩
  · intro env cmds s h
    induction cmds generalizing s with
    | nil => exact h
    | cons c cs ih =>
      simp only [runSession, List.foldl_cons]
      exact ih (handleCommand env c s) (controlTLS_step env c s h)
  · intro tlsRes s e htls
    simp only [handleAUTH, htls]
  · intro tlsRes s htls
    simp only [handleAUTH, htls]

/-- Concrete environment for the C5 witness. -/
def envC5 : Env :=
  { settings :=
      { DisableSite := false, DisableMLSD := false, DisableMLST := false,
        DisableMFMT := false, EnableHASH := true },
    getTLSConfig := (some (), none),
    stat := fun _ => Except.error GoErr.statFailed,
    hd :=
      { extCap := false,
        getHandle := fun _ _ => Except.error GoErr.openFailed,
        openFile := fun _ => Except.error GoErr.openFailed },
    absPath := fun s => s }

/-- Concrete session for the C5 witness, with the control-TLS flag set. -/
def sC5 : Session :=
  { conn := { underlying := 0, isTLS := false },
    reader := some { underlying := 0, isTLS := false },
    writer := { underlying := 0, isTLS := false },
    controlTLS := true, transferTLS := false, selectedHashAlgo := HASHAlgoCRC32,
    clnt := "", user := "", param := "" }

/-- Witness for C5: the flag survives a PROT command, and a successful AUTH
on the concrete session produces exactly the upgraded session and the
affirmative reply bound to the old writer. -/
theorem controlTLS_auth_spec_witness :
    (runSession envC5 [Command.prot] sC5).controlTLS = true
    ∧ handleAUTH ((some (), none) : Option Unit × Option String) sC5 =
      ({ sC5 with conn := tlsServer sC5.conn, reader := some (tlsServer sC5.conn),
                  writer := tlsServer sC5.conn, controlTLS := true },
       [((StatusAuthAccepted, "AUTH command ok. Expecting TLS Negotiation."),
         sC5.writer)]) :=
  ⟨controlTLS_auth_spec.1 envC5 [Command.prot] sC5 rfl,
   controlTLS_auth_spec.2.2 (some (), none) sC5 rfl⟩

/-! ## Claim C6: OPTS HASH negotiation -/

/-- Splitting `"HASH " ++ name` on the first space yields the verb and the
requested algorithm name. -/
theorem splitN_hash_param (name : String) :
    stringsSplitN ("HASH " ++ name) ' ' 2 = ["HASH", name] := rfl

/-- Claim C6: with the hash extension enabled, `OPTS HASH <name>` for a name
in the registry sets the session's negotiated algorithm to the looked-up
member and echoes the requested name with an OK status; for a name not in
the registry it writes the parameter-syntax error and leaves the session
(including the negotiated algorithm) unchanged; and bare `OPTS HASH` replies
OK with the reverse lookup of the currently negotiated algorithm. -/
theorem handleOPTS_hash_spec (s : Session) (name : String) (v : HASHAlgo) :
    (lookupHash name = some v → s.param = "HASH " ++ name →
       handleOPTS true s = ({ s with selectedHashAlgo := v }, (StatusOK, name)))
    ∧ (lookupHash name = none → s.param = "HASH " ++ name →
       handleOPTS true s =
         (s, (StatusSyntaxErrorParameters,
              "Unknown algorithm, current selection not changed")))
    ∧ (s.param = "HASH" →
       handleOPTS true s = (s, (StatusOK, hashNameOf s.selectedHashAlgo))) := by
  refine ⟨?_, ?_, ?_⟩
  · intro h hp
    unfold handleOPTS
    rw [hp, splitN_hash_param]
    simp [show equalFold "HASH" "UTF8" = false from by decide,
      show equalFold "HASH" "HASH" = true from by decide, h]
  · intro h hp
    unfold handleOPTS
    rw [hp, splitN_hash_param]
    simp [show equalFold "HASH" "UTF8" = false from by decide,
      show equalFold "HASH" "HASH" = true from by decide, h]
  · intro hp
    unfold handleOPTS
    rw [hp]
    simp [show stringsSplitN "HASH" ' ' 2 = ["HASH"] from rfl,
      show equalFold "HASH" "UTF8" = false from by decide,
      show equalFold "HASH" "HASH" = true from by decide]

/-- Concrete session for the C6 witness: CRC32 currently negotiated,
parameter requesting SHA-256. -/
def sC6 : Session :=
  { conn := { underlying := 0, isTLS := false },
    reader := some { underlying := 0, isTLS := false },
    writer := { underlying := 0, isTLS := false },
    controlTLS := false, transferTLS := false, selectedHashAlgo := HASHAlgoCRC32,
    clnt := "", user := "", param := "HASH SHA-256" }

/-- Witness for C6: `OPTS HASH SHA-256` on the concrete session selects
SHA-256 and echoes the name. -/
theorem handleOPTS_hash_spec_witness :
    handleOPTS true sC6 =
      ({ sC6 with selectedHashAlgo := HASHAlgoSHA256 }, (StatusOK, "SHA-256")) :=
  (handleOPTS_hash_spec sC6 "SHA-256" HASHAlgoSHA256).1 rfl rfl

/-! ## Claim C9: the negotiated algorithm stays inside the registry -/

/-- A successful registry lookup always returns a member of the registry. -/
theorem lookupHash_mem (name : String) (v : HASHAlgo)
    (h : lookupHash name = some v) : algoInMapping v = true := by
  unfold lookupHash at h
  cases hf : List.find? (fun kv => kv.1 == name) getHashMapping with
  | none => rw [hf] at h; simp at h
  | some kv =>
    rw [hf] at h
    simp at h
    have hm := List.mem_of_find?_eq_some hf
    subst h
    simp only [algoInMapping, List.any_eq_true]
    exact ⟨kv, hm, by simp⟩

/-- Each command handler preserves registry membership of the negotiated
algorithm: only `handleOPTS` assigns it, and only from a registry lookup. -/
theorem selectedAlgo_step (env : Env) (cmd : Command) (s : Session)
    (h : algoInMapping s.selectedHashAlgo = true) :
    algoInMapping (handleCommand env cmd s).selectedHashAlgo = true := by
  cases cmd
  case auth =>
    simp only [handleCommand, handleAUTH]
    cases env.getTLSConfig.2 <;> simp [h]
  case opts =>
    simp only [handleCommand, handleOPTS]
    repeat' split
    all_goals try simp [h]
    next v hv => simpa using lookupHash_mem _ _ hv
  case typeCmd =>
    simp only [handleCommand, handleTYPE]
    split <;> simp [h]
  all_goals
    simp [handleCommand, handlePROT, handlePBSZ, handleSYST, handleNOOP,
      handleCLNT, handleQUIT, h]

/-- Claim C9: the invariant "the session's negotiated hash algorithm is a
member of the algorithm registry" is preserved by every command handler
(`handleOPTS` only ever assigns values looked up from the registry), and
under the invariant the no-argument `OPTS HASH` reverse lookup finds exactly
the registered name of the negotiated algorithm. -/
theorem selectedHashAlgo_invariant_spec (a : HASHAlgo)
    (ha : algoInMapping a = true) :
    (∀ env cmd s, s.selectedHashAlgo = a →
       algoInMapping (handleCommand env cmd s).selectedHashAlgo = true)
    ∧ lookupHash (hashNameOf a) = some a := by
  constructor
  · intro env cmd s hs
    exact selectedAlgo_step env cmd s (by rw [hs]; exact ha)
  · have hcases : a = 0 ∨ a = 1 ∨ a = 2 ∨ a = 3 ∨ a = 4 := by
      simp [algoInMapping, getHashMapping, HASHAlgoCRC32, HASHAlgoMD5,
        HASHAlgoSHA1, HASHAlgoSHA256, HASHAlgoSHA512] at ha
      rcases ha with h|h|h|h|h <;> subst h <;> simp
    rcases hcases with h|h|h|h|h <;> subst h <;> rfl

/-- Concrete environment for the C9 witness. -/
def envC9 : Env :=
  { settings :=
      { DisableSite := false, DisableMLSD := false, DisableMLST := false,
        DisableMFMT := false, EnableHASH := true },
    getTLSConfig := (none, some "no tls"),
    stat := fun _ => Except.error GoErr.statFailed,
    hd :=
      { extCap := false,
        getHandle := fun _ _ => Except.error GoErr.openFailed,
        openFile := fun _ => Except.error GoErr.openFailed },
    absPath := fun s => s }

/-- Concrete session for the C9 witness, with CRC32 negotiated. -/
def sC9 : Session :=
  { conn := { underlying := 0, isTLS := false },
    reader := some { underlying := 0, isTLS := false },
    writer := { underlying := 0, isTLS := false },
    controlTLS := false, transferTLS := false, selectedHashAlgo := HASHAlgoCRC32,
    clnt := "", user := "", param := "" }

/-- Witness for C9: instantiated at the CRC32 member, a PROT command
preserves membership and the reverse lookup reports the CRC32 name. -/
theorem selectedHashAlgo_invariant_spec_witness :
    algoInMapping (handleCommand envC9 Command.prot sC9).selectedHashAlgo = true
    ∧ lookupHash (hashNameOf HASHAlgoCRC32) = some HASHAlgoCRC32 :=
  ⟨(selectedHashAlgo_invariant_spec HASHAlgoCRC32 (by decide)).1 envC9
      Command.prot sC9 rfl,
   (selectedHashAlgo_invariant_spec HASHAlgoCRC32 (by decide)).2⟩

/-! ## Claim C10: SITE subcommand dispatch -/

/-- Claim C10: with SITE enabled, subcommand matching is case-insensitive on
the first space-separated token — a parameter splitting into a token and a
non-empty remainder dispatches to the CHMOD, CHOWN or SYMLINK handler when
the uppercased token matches; a parameter with no remainder part, or one
whose token matches none of the three, gets the not-recognised reply and
invokes no dedicated handler. -/
theorem handleSITE_dispatch_spec (param : String) :
    (∀ tok rest, stringsSplitN param ' ' 2 = [tok, rest] → rest ≠ "" →
       (goToUpper tok = "CHMOD" → handleSITE false param = SiteOutcome.chmod rest)
       ∧ (goToUpper tok = "CHOWN" → handleSITE false param = SiteOutcome.chown rest)
       ∧ (goToUpper tok = "SYMLINK" → handleSITE false param = SiteOutcome.symlink rest))
    ∧ (∀ tok, stringsSplitN param ' ' 2 = [tok] →
       handleSITE false param = SiteOutcome.notUnderstood)
    ∧ (∀ tok rest, stringsSplitN param ' ' 2 = [tok, rest] →
       goToUpper tok ≠ "CHMOD" → goToUpper tok ≠ "CHOWN" → goToUpper tok ≠ "SYMLINK" →
       handleSITE false param = SiteOutcome.notUnderstood) := by
  refine ⟨?_, ?_, ?_⟩
  · intro tok rest hsplit hne
    refine ⟨fun hu => ?_, fun hu => ?_, fun hu => ?_⟩ <;>
      simp [handleSITE, hsplit, hu]
  · intro tok hsplit
    simp [handleSITE, hsplit]
  · intro tok rest hsplit h1 h2 h3
    simp [handleSITE, hsplit, h1, h2, h3]

/-- Witness for C10: `SITE chmod 777 x` (lowercase verb) dispatches to the
CHMOD handler with remainder "777 x". -/
theorem handleSITE_dispatch_spec_witness :
    handleSITE false "chmod 777 x" = SiteOutcome.chmod "777 x" :=
  (((handleSITE_dispatch_spec "chmod 777 x").1 "chmod" "777 x" rfl
    (by decide)).1) rfl

/-! ## Claim C7: FEAT body tokens -/

/-- The composite FEAT hash line takes one of six concrete values: the five
registry names in registry order, each followed by a semicolon, with a star
after the selected algorithm's name when the selection is a registry
member. -/
theorem hashLineFor_cases (algo : HASHAlgo) :
    hashLineFor algo = "CRC32*;MD5;SHA-1;SHA-256;SHA-512;" ∨
    hashLineFor algo = "CRC32;MD5*;SHA-1;SHA-256;SHA-512;" ∨
    hashLineFor algo = "CRC32;MD5;SHA-1*;SHA-256;SHA-512;" ∨
    hashLineFor algo = "CRC32;MD5;SHA-1;SHA-256*;SHA-512;" ∨
    hashLineFor algo = "CRC32;MD5;SHA-1;SHA-256;SHA-512*;" ∨
    hashLineFor algo = "CRC32;MD5;SHA-1;SHA-256;SHA-512;" := by
  by_cases h0 : algo = 0
  · subst h0; left; rfl
  by_cases h1 : algo = 1
  · subst h1; right; left; rfl
  by_cases h2 : algo = 2
  · subst h2; right; right; left; rfl
  by_cases h3 : algo = 3
  · subst h3; right; right; right; left; rfl
  by_cases h4 : algo = 4
  · subst h4; right; right; right; right; left; rfl
  right; right; right; right; right
  simp only [hashLineFor, getHashMapping, List.foldl,
    HASHAlgoCRC32, HASHAlgoMD5, HASHAlgoSHA1, HASHAlgoSHA256, HASHAlgoSHA512]
  rw [if_neg (fun h => h0 h.symm), if_neg (fun h => h1 h.symm),
    if_neg (fun h => h2 h.symm), if_neg (fun h => h3 h.symm),
    if_neg (fun h => h4 h.symm)]
  rfl

/-- The composite hash line never collides with any fixed FEAT token. -/
theorem hashLineFor_ne_fixed (algo : HASHAlgo) :
    hashLineFor algo ≠ "CLNT" ∧ hashLineFor algo ≠ "UTF8" ∧
    hashLineFor algo ≠ "SIZE" ∧ hashLineFor algo ≠ "MDTM" ∧
    hashLineFor algo ≠ "REST STREAM" ∧ hashLineFor algo ≠ "MLSD" ∧
    hashLineFor algo ≠ "MLST" ∧ hashLineFor algo ≠ "MFMT" ∧
    hashLineFor algo ≠ "AUTH TLS" ∧ hashLineFor algo ≠ "XCRC" ∧
    hashLineFor algo ≠ "MD5" ∧ hashLineFor algo ≠ "XMD5" ∧
    hashLineFor algo ≠ "XSHA" ∧ hashLineFor algo ≠ "XSHA1" ∧
    hashLineFor algo ≠ "XSHA256" ∧ hashLineFor algo ≠ "XSHA512" := by
  rcases hashLineFor_cases algo with h|h|h|h|h|h <;> rw [h] <;> decide

/-- Claim C7: for all settings, TLS-config results, and negotiated
algorithms, the FEAT body contains the token `AUTH TLS` if and only if the
driver returns a usable (non-nil, error-free) TLS configuration, and
contains the composite hash line (every supported name followed by a
semicolon, the negotiated one starred) if and only if the hash extension is
enabled. -/
theorem handleFEAT_tokens_spec (st : Settings)
    (tlsRes : Option Unit × Option String) (algo : HASHAlgo) :
    ("AUTH TLS" ∈ featFeatures st tlsRes algo ↔
      (tlsRes.1.isSome && tlsRes.2.isNone) = true)
    ∧ (hashLineFor algo ∈ featFeatures st tlsRes algo ↔ st.EnableHASH = true) := by
  obtain ⟨n1, n2, n3, n4, n5, n6, n7, n8, n9, n10, n11, n12, n13, n14, n15, n16⟩ :=
    hashLineFor_ne_fixed algo
  unfold featFeatures
  split_ifs <;>
    simp_all [List.mem_append, List.mem_cons, Ne.symm n9]
